import Mathlib

/-!
Shallow embedding of the GP2-to-OSP extraction core (GP2toOSP.cpp).

The C program reads a GP2 debug log line by line; each line carries a
23-character time tag `dd/mm/yyyy hh:mm:ss.mmm` followed by a hex dump of an
OSP frame bounded by the marker token pairs "A0 A2" (head) and "B0 B3" (tail).
The pipeline filters lines by an inclusive time window, decodes the hex bytes
between the markers, validates length and a 15-bit additive checksum, filters
by a MID whitelist and writes `payloadLen + 2` bytes per accepted frame.

Conventions of the embedding:
* C strings become `List Char`; pointers into the line become `Nat` indices,
  with `Option Nat` for pointers that may be NULL (`strstr` results).
* `time_t` becomes `Int`; `mktime`/`localtime` are modelled as a UTC
  civil-calendar conversion (days-from-civil), with the field normalization
  `mktime` performs; the timezone offset is fixed to 0.
* machine integers become `Nat`/`Int`; storing into `unsigned char` is `% 256`,
  the checksum mask `& 0x7FFF` is `&&& 32767`.
* `sscanf`-style scanning is modelled directly: `%d` skips whitespace, reads an
  optional sign and a maximal digit run; `%x` skips whitespace and reads a
  maximal hex-digit run (the input tokens carry no 0x prefix and no sign).
-/

/-- Whitespace as recognized by the C `isspace` used by `sscanf` conversions. -/
def isWs (c : Char) : Bool :=
  c = ' ' || c = Char.ofNat 9 || c = Char.ofNat 10 || c = Char.ofNat 13 ||
  c = Char.ofNat 11 || c = Char.ofNat 12

/-- Drop leading whitespace, as the `%d`/`%x` conversions do. -/
def skipWs : List Char → List Char
  | [] => []
  | c :: t => if isWs c then skipWs t else c :: t

/-- Decimal digit test for the `%d` conversion and `atoi`. -/
def isDigitCh (c : Char) : Bool := '0' ≤ c && c ≤ '9'

/-- Accumulate a maximal run of decimal digits; returns value and rest. -/
def readDigAcc : List Char → Nat → Nat × List Char
  | [], acc => (acc, [])
  | c :: t, acc =>
    if isDigitCh c then readDigAcc t (acc * 10 + (c.toNat - 48)) else (acc, c :: t)

/-- Read at least one decimal digit (fails on none), then a maximal run. -/
def readDigits : List Char → Option (Nat × List Char)
  | [] => none
  | c :: t => if isDigitCh c then some (readDigAcc t (c.toNat - 48)) else none

/-- The `%d` conversion of `sscanf`: skip whitespace, optional sign, digits. -/
def readInt (cs : List Char) : Option (Int × List Char) :=
  match skipWs cs with
  | '-' :: t =>
    match readDigits t with
    | some (n, r) => some (-(n : Int), r)
    | none => none
  | '+' :: t =>
    match readDigits t with
    | some (n, r) => some ((n : Int), r)
    | none => none
  | t =>
    match readDigits t with
    | some (n, r) => some ((n : Int), r)
    | none => none

/-- An ordinary (non-whitespace) format character must match exactly. -/
def expectChar (c : Char) : List Char → Option (List Char)
  | [] => none
  | x :: t => if x = c then some t else none

/-- The scan `sscanf(s, "%d/%d/%d %d:%d:%d", ...)` of `dt2time`: six integer
fields or failure (the whitespace directive between the third and fourth field
matches any run of whitespace, possibly empty). -/
def parse6 (cs : List Char) : Option (Int × Int × Int × Int × Int × Int) :=
  match readInt cs with
  | none => none
  | some (a, r1) =>
    match expectChar '/' r1 with
    | none => none
    | some r2 =>
      match readInt r2 with
      | none => none
      | some (b, r3) =>
        match expectChar '/' r3 with
        | none => none
        | some r4 =>
          match readInt r4 with
          | none => none
          | some (c, r5) =>
            match readInt (skipWs r5) with
            | none => none
            | some (d, r6) =>
              match expectChar ':' r6 with
              | none => none
              | some r7 =>
                match readInt r7 with
                | none => none
                | some (e, r8) =>
                  match expectChar ':' r8 with
                  | none => none
                  | some r9 =>
                    match readInt r9 with
                    | none => none
                    | some (f, _) => some (a, b, c, d, e, f)

/-- Days since 1970-01-01 of the civil date `(y, m, d)` with `m ∈ [1,12]`
(`d` may be out of range; it contributes linearly, exactly as the `tm_mday`
normalization of `mktime` does). -/
def daysFromCivil (y m d : Int) : Int :=
  let y1 := if m ≤ 2 then y - 1 else y
  let era := Int.fdiv y1 400
  let yoe := y1 - era * 400
  let mp := Int.emod (m + 9) 12
  let doy := (153 * mp + 2) / 5 + d - 1
  let doe := yoe * 365 + yoe / 4 - yoe / 100 + doy
  era * 146097 + doe - 719468

/-- Model of `mktime` on the `tm` fields set by `dt2time`
(`tm_mday = a`, `tm_mon = b-1`, `tm_year = c-1900`, then hour/min/sec),
including the month normalization `mktime` performs, interpreted in UTC. -/
def mkTime (a b c d e f : Int) : Int :=
  let mon0 := b - 1
  let y := c + Int.fdiv mon0 12
  let m := Int.emod mon0 12 + 1
  daysFromCivil y m a * 86400 + d * 3600 + e * 60 + f

/-- `dt2time`: scan `dd/mm/yyyy hh:mm:ss`, convert with `mktime`; `-1` when the
six fields cannot be scanned. -/
def dt2time (s : String) : Int :=
  match parse6 s.data with
  | some (a, b, c, d, e, f) => mkTime a b c d e f
  | none => -1

/-- `checkInterval`: true when the tag converts (result not `-1`) and lies in
the inclusive window `[fromT, toT]`. -/
def checkInterval (timeTag : String) (fromT toT : Int) : Bool :=
  let tag := dt2time timeTag
  if tag ≠ -1 then decide (fromT ≤ tag ∧ tag ≤ toT) else false

/-- Index of the first occurrence of `pat` in `s` (C `strstr`); `none` for the
NULL result. An empty pattern matches at the start, as `strstr` specifies. -/
def strstrIdx : List Char → List Char → Option Nat
  | [], pat => if List.isPrefixOf pat [] then some 0 else none
  | c :: t, pat =>
    if List.isPrefixOf pat (c :: t) then some 0
    else (strstrIdx t pat).map (fun k => k + 1)

/-- Hex digit value for the `%x` conversion. -/
def hexVal (c : Char) : Option Nat :=
  if '0' ≤ c ∧ c ≤ '9' then some (c.toNat - 48)
  else if 'A' ≤ c ∧ c ≤ 'F' then some (c.toNat - 55)
  else if 'a' ≤ c ∧ c ≤ 'f' then some (c.toNat - 87)
  else none

/-- Accumulate a maximal run of hex digits. -/
def hexCont : List Char → Nat → Nat
  | [], acc => acc
  | c :: t, acc =>
    match hexVal c with
    | some v => hexCont t (acc * 16 + v)
    | none => acc

/-- Read at least one hex digit, then a maximal run. -/
def hexNum : List Char → Option Nat
  | [] => none
  | c :: t =>
    match hexVal c with
    | some v => some (hexCont t v)
    | none => none

/-- The scan `sscanf(header, "%x", &ui)` with `header` at index `h` of the
line: skip whitespace, then a maximal hex-digit run; `none` when no digit can
be read (scan returns 0 items). -/
def scanHexAt (cs : List Char) (h : Nat) : Option Nat :=
  hexNum (skipWs (cs.drop h))

/-- The byte-extraction loop of `extractMsgs`: starting at index `h` with `n`
bytes already read, while `header < tail && nbytesRead < MSGSIZE` scan a hex
token; on success store it in `OSPmsg` as an `unsigned char` (`% 256`), advance
the pointer by 3 and the count by 1; on scan failure set `header = tail`
(stop). Returns the decoded byte list. -/
def extractBytesAux (cs : List Char) (t : Nat) : Nat → Nat → Nat → List Nat
  | 0, _, _ => []
  | fuel + 1, h, n =>
    if h < t ∧ n < 2050 then
      match scanHexAt cs h with
      | some ui => ui % 256 :: extractBytesAux cs t fuel (h + 3) (n + 1)
      | none => []
    else []

/-- The loop, entered with `2050 - n` fuel: the guard `n < 2050` fails exactly
when the fuel is exhausted, so the fuel never cuts the loop short. -/
def extractBytes (cs : List Char) (t h n : Nat) : List Nat :=
  extractBytesAux cs t (2050 - n) h n

/-- Total indexing into the `OSPmsg` buffer model: element `i`, 0 outside the
list (the C array is zero-initialized). -/
def nthD : List Nat → Nat → Nat
  | [], _ => 0
  | c :: _, 0 => c
  | _ :: t, i + 1 => nthD t i

/-- `payloadLen = (OSPmsg[0] << 8) | OSPmsg[1]` (big-endian 16-bit). -/
def payloadLenOf (bytes : List Nat) : Nat :=
  nthD bytes 0 <<< 8 ||| nthD bytes 1

/-- `messageCheck = (OSPmsg[payloadLen+2] << 8) | OSPmsg[payloadLen+3]`:
the trailing 2-byte big-endian checksum field. -/
def msgCheckOf (bytes : List Nat) : Nat :=
  nthD bytes (payloadLenOf bytes + 2) <<< 8 ||| nthD bytes (payloadLenOf bytes + 3)

/-- The checksum loop of `extractMsgs`:
`for (i = 0; i < payloadLen; i++) { computedCheck += OSPmsg[i+2]; computedCheck &= 0x7FFF; }`. -/
def checkLoopAux (bytes : List Nat) (pl : Nat) : Nat → Nat → Nat → Nat
  | 0, _, acc => acc
  | fuel + 1, i, acc =>
    if i < pl then checkLoopAux bytes pl fuel (i + 1) ((acc + nthD bytes (i + 2)) &&& 32767)
    else acc

/-- The loop, entered with `pl - i` fuel: fuel 0 means `i ≥ pl`, exactly the
loop exit condition, so the fuel never cuts the loop short. -/
def checkLoop (bytes : List Nat) (pl i acc : Nat) : Nat :=
  checkLoopAux bytes pl (pl - i) i acc

/-- Result of the validation chain of `extractMsgs` (lines 232-252). -/
inductive VResult
  | tooShortLong
  | lenMismatch
  | checkMismatch
  | ok
deriving DecidableEq

/-- The validation chain of `extractMsgs` on a decoded buffer: the bounds check
`nbytesRead >= MSGSIZE || nbytesRead <= 4` (MSGSIZE = 2050), then the length
check `nbytesRead != payloadLen + 4`, then the checksum comparison. -/
def validateFrame (bytes : List Nat) : VResult :=
  if 2050 ≤ bytes.length ∨ bytes.length ≤ 4 then .tooShortLong
  else if bytes.length ≠ payloadLenOf bytes + 4 then .lenMismatch
  else if checkLoop bytes (payloadLenOf bytes) 0 0 ≠ msgCheckOf bytes then .checkMismatch
  else .ok

/-- The default wanted-MID array
`unsigned char WANTEDMsg[100] = {2,6,7,56,8,11,12,15,28,50,64,75,0}` (remaining
elements zero-initialized), as a function from index to stored byte. -/
def WANTEDMsg0 : Nat → Nat := fun i =>
  nthD [2, 6, 7, 56, 8, 11, 12, 15, 28, 50, 64, 75] i

/-- The scan loop of `wantedMsg`:
`for (i = 0; i < WMSGSIZE && WANTEDMsg[i] != 0; i++) if (WANTEDMsg[i] == mid) return true;`. -/
def wantedScanAux (a : Nat → Nat) (mid : Nat) : Nat → Nat → Bool
  | 0, _ => false
  | fuel + 1, i =>
    if i < 100 then
      if a i = 0 then false
      else if a i = mid then true
      else wantedScanAux a mid fuel (i + 1)
    else false

/-- The loop, entered with `100 - i` fuel: fuel 0 means `i ≥ 100`, exactly the
loop exit condition, so the fuel never cuts the loop short. -/
def wantedScan (a : Nat → Nat) (mid : Nat) (i : Nat) : Bool :=
  wantedScanAux a mid (100 - i) i

/-- `wantedMsg`: accept-all when the first entry is 0, else scan the list. -/
def wantedMsg (a : Nat → Nat) (mid : Nat) : Bool :=
  if a 0 = 0 then true else wantedScan a mid 0

/-- Outcome of processing one line of the input, in the order the code takes
its branches. `invalidDeref` marks the undefined behavior of evaluating
`strstr(header + 5, "B0 B3")` when `header` is the NULL result of the head
search. -/
inductive LineOutcome
  | skippedTime
  | invalidDeref
  | noHeaderTail
  | noData
  | lengthMismatch
  | checksumErr
  | accepted (msg : List Nat)
  | skippedMid
deriving DecidableEq

/-- One iteration of the line loop of `extractMsgs` (lines 208-265), up to the
decision taken for the line, after extraction: validation, then the MID
filter. An accepted line carries the `payloadLen + 2` bytes passed to
`fwrite`. -/
def classifyFrame (w : Nat → Nat) (bytes : List Nat) : LineOutcome :=
  match validateFrame bytes with
  | .tooShortLong => .noData
  | .lenMismatch => .lengthMismatch
  | .checkMismatch => .checksumErr
  | .ok =>
    if wantedMsg w (nthD bytes 2) then .accepted (bytes.take (payloadLenOf bytes + 2))
    else .skippedMid

/-- The time-window check, then the head search, then the tail search (an
invalid dereference when the head search returned NULL), then extraction from
`header + 6` and the classification above. -/
def processLine (w : Nat → Nat) (fromT toT : Int) (line : String) : LineOutcome :=
  if checkInterval line fromT toT then
    match strstrIdx line.data ("A0 A2").data with
    | none => .invalidDeref
    | some hIdx =>
      match strstrIdx (line.data.drop (hIdx + 5)) ("B0 B3").data with
      | none => .noHeaderTail
      | some tOff => classifyFrame w (extractBytes line.data (hIdx + 5 + tOff) (hIdx + 6) 0)
  else .skippedTime

/-- True exactly on lines the loop writes to the output. -/
def LineOutcome.isAcc : LineOutcome → Bool
  | .accepted _ => true
  | _ => false

/-- Number of lines of the list that reach the `fwrite` call. -/
def countAccepted (w : Nat → Nat) (fromT toT : Int) (lines : List String) : Nat :=
  lines.countP (fun l => (processLine w fromT toT l).isAcc)

/-- The line loop of `extractMsgs` with the output sink abstracted: `sink n`
tells whether the `fwrite` for the `n`-th accepted frame reports the full
requested count. A short write returns `-nMessages - 4` at once; end of input
returns `nMessages`. `none` models the undefined behavior of the
missing-header dereference (the program does not reach a return). -/
def extractLoop (w : Nat → Nat) (fromT toT : Int) (sink : Nat → Bool) :
    List String → Nat → Option Int
  | [], n => some (Int.ofNat n)
  | l :: ls, n =>
    match processLine w fromT toT l with
    | .invalidDeref => none
    | .accepted _ =>
      if sink n then extractLoop w fromT toT sink ls (n + 1)
      else some (-(Int.ofNat n) - 4)
    | _ => extractLoop w fromT toT sink ls n

/-- `extractMsgs`, starting with `nMessages = 0`. -/
def extractMsgs (w : Nat → Nat) (fromT toT : Int) (sink : Nat → Bool)
    (lines : List String) : Option Int :=
  extractLoop w fromT toT sink lines 0

/-- Point update of the modelled `WANTEDMsg` array (assignment at an index). -/
def updArr (a : Nat → Nat) (i v : Nat) : Nat → Nat :=
  fun j => if j = i then v else a j

/-- The initial-position scan of `addWANTED`:
`for (nextPos = 0; nextPos < WMSGSIZE && WANTEDMsg[nextPos] != 0; nextPos++);`. -/
def scanPosAux (a : Nat → Nat) : Nat → Nat → Nat
  | 0, i => i
  | fuel + 1, i => if i < 100 then (if a i ≠ 0 then scanPosAux a fuel (i + 1) else i) else i

/-- The loop, entered with `100 - i` fuel: fuel 0 means `i ≥ 100`, exactly the
loop exit condition, so the fuel never cuts the loop short. -/
def scanPos (a : Nat → Nat) (i : Nat) : Nat :=
  scanPosAux a (100 - i) i

/-- Delimiter set `",;.:"` of the `strtok` calls in `addWANTED`. -/
def isDelim (c : Char) : Bool := c = ',' || c = ';' || c = '.' || c = ':'

/-- `strtok` tokenization: maximal runs of non-delimiter characters, empty
runs skipped. `cur` is the (reversed) token being accumulated. -/
def toks : List Char → List Char → List (List Char)
  | [], cur => if cur = [] then [] else [cur.reverse]
  | c :: t, cur =>
    if isDelim c then (if cur = [] then toks t [] else cur.reverse :: toks t [])
    else toks t (c :: cur)

/-- C `atoi`: skip whitespace, optional sign, maximal digit run; 0 when no
digit is present. -/
def atoiCh (cs : List Char) : Int :=
  match skipWs cs with
  | '-' :: t => -((readDigAcc t 0).1 : Int)
  | '+' :: t => ((readDigAcc t 0).1 : Int)
  | t => ((readDigAcc t 0).1 : Int)

/-- The byte stored by `WANTEDMsg[nextPos] = atoi(ptok)`: the `int` result of
`atoi` converted to `unsigned char`, i.e. reduced modulo 256. -/
def tokByte (tok : List Char) : Nat := ((atoiCh tok).emod 256).toNat

/-- The insertion loop of `addWANTED`: for each token, store its byte at
`nextPos` (the store happens before any bound check), then advance `nextPos`
only when `nextPos < WMSGSIZE` and the stored byte is nonzero. Returns the
final array and position. -/
def addLoop : List Nat → (Nat → Nat) → Nat → (Nat → Nat) × Nat
  | [], a, p => (a, p)
  | v :: rest, a, p =>
    let a1 := updArr a p v
    let p1 := if p < 100 ∧ a1 p ≠ 0 then p + 1 else p
    addLoop rest a1 p1

/-- The sequence of array indices written by the insertion loop of
`addWANTED`, in order (same recursion as `addLoop`, recording each store). -/
def addLoopWrites : List Nat → (Nat → Nat) → Nat → List Nat
  | [], _, _ => []
  | v :: rest, a, p =>
    let a1 := updArr a p v
    let p1 := if p < 100 ∧ a1 p ≠ 0 then p + 1 else p
    p :: addLoopWrites rest a1 p1

/-- `addWANTED`: copy at most 300 characters of the configuration string
(`strncpy(mids, midList.c_str(), 300)`), tokenize with `strtok`, convert each
token with `atoi` and insert starting at the first free position. -/
def addWANTED (cs : List Char) (a : Nat → Nat) : (Nat → Nat) × Nat :=
  addLoop ((toks (cs.take 300) []).map tokByte) a (scanPos a 0)

/-- The write indices performed by a call of `addWANTED`. -/
def addWANTEDWrites (cs : List Char) (a : Nat → Nat) : List Nat :=
  addLoopWrites ((toks (cs.take 300) []).map tokByte) a (scanPos a 0)

/-- The wanted-list configuration dispatch of `main` (lines 150-154):
`ALL` clears the first entry, `RINEX` keeps the defaults, a `RINEX,` prefix
appends the suffix after the defaults, anything else is appended after the
defaults as well. -/
def buildWhitelist (s : String) : Nat → Nat :=
  if s.data = ("ALL").data then updArr WANTEDMsg0 0 0
  else if s.data = ("RINEX").data then WANTEDMsg0
  else if List.isPrefixOf ("RINEX,").data s.data then (addWANTED (s.data.drop 6) WANTEDMsg0).1
  else (addWANTED s.data WANTEDMsg0).1


/-- Sum of the payload bytes `OSPmsg[2 .. 2+pl)` of a decoded buffer. -/
def paySum (bytes : List Nat) (pl : Nat) : Nat :=
  ((List.range pl).map (fun k => nthD bytes (k + 2))).sum

lemma and_mask (x : Nat) : x &&& 32767 = x % 32768 := by
  have h := Nat.and_pow_two_sub_one_eq_mod x 15
  norm_num at h
  exact h

lemma nthD_set_self : ∀ (l : List Nat) (i a : Nat), i < l.length → nthD (l.set i a) i = a
  | [], i, a, h => absurd h (by simp)
  | _ :: _, 0, a, _ => rfl
  | _ :: t, i + 1, a, h => nthD_set_self t i a (by simpa using h)

lemma nthD_set_ne : ∀ (l : List Nat) (i j a : Nat), i ≠ j → nthD (l.set i a) j = nthD l j
  | [], _, _, _, _ => rfl
  | _ :: _, 0, 0, _, hne => absurd rfl hne
  | _ :: _, 0, _ + 1, _, _ => rfl
  | _ :: _, _ + 1, 0, _, _ => rfl
  | _ :: t, i + 1, j + 1, a, hne => nthD_set_ne t i j a (fun h => hne (by omega))

lemma nthD_mem : ∀ (l : List Nat) (i : Nat), i < l.length → nthD l i ∈ l
  | [], i, h => absurd h (by simp)
  | c :: _, 0, _ => by simp [nthD]
  | _ :: t, i + 1, h => by
    simpa [nthD] using Or.inr (nthD_mem t i (by simpa using h))

lemma range_map_sum_swap (f g : Nat → Nat) :
    ∀ n k0, k0 < n → (∀ k, k < n → k ≠ k0 → f k = g k) →
    ((List.range n).map f).sum + g k0 = ((List.range n).map g).sum + f k0 := by
  intro n
  induction n with
  | zero => intro k0 hk _; omega
  | succ m ih =>
    intro k0 hk hagree
    rw [List.range_succ, List.map_append, List.map_append, List.sum_append, List.sum_append]
    simp only [List.map_cons, List.map_nil, List.sum_cons, List.sum_nil]
    rcases Nat.lt_or_ge k0 m with hlt | hge
    · have hfg : f m = g m := hagree m (by omega) (by omega)
      have hih := ih k0 hlt (fun k hkm hne => hagree k (by omega) hne)
      omega
    · have hk0 : k0 = m := by omega
      subst hk0
      have heq : ((List.range k0).map f).sum = ((List.range k0).map g).sum := by
        have : (List.range k0).map f = (List.range k0).map g := by
          apply List.map_congr_left
          intro k hkmem
          have hkm := List.mem_range.mp hkmem
          exact hagree k (by omega) (by omega)
        rw [this]
      omega

lemma checkLoopAux_eq (bytes : List Nat) (pl : Nat) :
    ∀ fuel i acc, pl ≤ i + fuel → acc < 32768 →
    checkLoopAux bytes pl fuel i acc =
      (acc + ((List.range (pl - i)).map (fun k => nthD bytes (i + k + 2))).sum) % 32768 := by
  intro fuel
  induction fuel with
  | zero =>
    intro i acc hle hacc
    have hpi : pl - i = 0 := by omega
    simp [checkLoopAux, hpi, Nat.mod_eq_of_lt hacc]
  | succ m ih =>
    intro i acc hle hacc
    by_cases hip : i < pl
    · have hstep : checkLoopAux bytes pl (m + 1) i acc =
          checkLoopAux bytes pl m (i + 1) ((acc + nthD bytes (i + 2)) &&& 32767) := by
        simp [checkLoopAux, hip]
      rw [hstep, and_mask, ih (i + 1) _ (by omega) (Nat.mod_lt _ (by omega))]
      have hsum : ((List.range (pl - i)).map (fun k => nthD bytes (i + k + 2))).sum =
          nthD bytes (i + 2) +
            ((List.range (pl - (i + 1))).map (fun k => nthD bytes (i + 1 + k + 2))).sum := by
        have hrange : pl - i = (pl - (i + 1)) + 1 := by omega
        rw [hrange, List.range_succ_eq_map, List.map_cons, List.sum_cons, List.map_map]
        have hmap : (List.range (pl - (i + 1))).map
              ((fun k => nthD bytes (i + k + 2)) ∘ Nat.succ) =
            (List.range (pl - (i + 1))).map (fun k => nthD bytes (i + 1 + k + 2)) := by
          apply List.map_congr_left
          intro k _
          show nthD bytes (i + (k + 1) + 2) = nthD bytes (i + 1 + k + 2)
          congr 1
          omega
        rw [hmap]
      rw [hsum, Nat.mod_add_mod]
      congr 1
      omega
    · have hpi : pl - i = 0 := by omega
      simp [checkLoopAux, hip, hpi, Nat.mod_eq_of_lt hacc]

lemma checkLoop_eq_paySum (bytes : List Nat) (pl : Nat) :
    checkLoop bytes pl 0 0 = paySum bytes pl % 32768 := by
  unfold checkLoop paySum
  rw [checkLoopAux_eq bytes pl (pl - 0) 0 0 (by omega) (by omega)]
  simp only [Nat.sub_zero, Nat.zero_add]

lemma validateFrame_cases (bytes : List Nat) :
    (validateFrame bytes = .tooShortLong ↔ bytes.length ≤ 4 ∨ 2050 ≤ bytes.length) ∧
    (validateFrame bytes = .lenMismatch ↔
      4 < bytes.length ∧ bytes.length < 2050 ∧ bytes.length ≠ payloadLenOf bytes + 4) ∧
    (validateFrame bytes = .checkMismatch ↔
      4 < bytes.length ∧ bytes.length < 2050 ∧ bytes.length = payloadLenOf bytes + 4 ∧
        checkLoop bytes (payloadLenOf bytes) 0 0 ≠ msgCheckOf bytes) ∧
    (validateFrame bytes = .ok ↔
      4 < bytes.length ∧ bytes.length < 2050 ∧ bytes.length = payloadLenOf bytes + 4 ∧
        checkLoop bytes (payloadLenOf bytes) 0 0 = msgCheckOf bytes) := by
  unfold validateFrame
  split_ifs with h1 h2 h3 <;> refine ⟨?_, ?_, ?_, ?_⟩ <;> simp_all
  all_goals omega

/-- A well-formed GP2 line: one frame with payload length 1, payload byte 02
(MID 2), checksum 0x0002, inside the default markers. -/
def gp2LineOk : String := "29/10/2014 20:31:08.942 (0) A0 A2 00 01 02 00 02 B0 B3"

/-- A GP2 line with a valid time tag but no head marker anywhere. -/
def gp2LineNoHead : String := "29/10/2014 20:31:08.942 (0) FF FF no markers"

/-- A GP2 line dated 1990 (outside a 2014-2020 window) with no markers. -/
def gp2LineEarly : String := "01/01/1990 00:00:00.000 no markers at all"

/-- A time tag whose six fields scan and whose instant is exactly -1
(one second before the epoch). -/
def sentinelTag : String := "31/12/1969 23:59:59"

/-- 89 comma-separated tokens of value 13 (266 characters, under the 300-char
`strncpy` bound): enough to carry the insertion position from 12 to 100. -/
def toks89 : List Char := List.intercalate [','] (List.replicate 89 ['1','3'])

/-- An output sink whose first `fwrite` reports the full count and whose
second reports a short write. -/
def sinkFailSecond : Nat → Bool := fun n => n == 0

/-- C1: the claim says a line lacking the head marker pair is skipped with a
missing-header diagnostic and that per-line processing is total. The code
instead evaluates `strstr(header + 5, "B0 B3")` with `header == NULL` before
the NULL check (lines 214-216): on an in-window line with no "A0 A2" the
modelled step reaches the invalid dereference, not a clean skip. -/
theorem missingHeader_reaches_null_deref :
    checkInterval gp2LineNoHead 0 2000000000 = true ∧
    strstrIdx gp2LineNoHead.data (("A0 A2").data) = none ∧
    processLine WANTEDMsg0 0 2000000000 gp2LineNoHead = LineOutcome.invalidDeref := by
  decide

set_option maxRecDepth 4000 in
/-- C6: the claim says no write is performed outside the 100-entry wanted
set. Evaluating `addWANTED` on 89 nonzero tokens after the 12 default entries
shows the insertion loop storing at index 100, one element past the end of
`WANTEDMsg[100]`, because the store precedes the bound check (line 337 vs
338); the final insertion position also reaches 100. -/
theorem addWANTED_writes_out_of_bounds :
    toks89.length = 266 ∧
    (addWANTEDWrites toks89 WANTEDMsg0).contains 100 = true ∧
    (addWANTED toks89 WANTEDMsg0).2 = 100 := by
  decide

set_option maxRecDepth 4000 in
/-- C7 counterexample: the tag `31/12/1969 23:59:59` scans into six fields and
converts to the instant -1, which lies inside the window [-10, 10], yet
`checkInterval` returns false: the code conflates the parsed instant -1 with
the conversion-failure sentinel, refuting the claim that every parsed
in-window instant is accepted. -/
theorem checkInterval_sentinel_cex :
    parse6 sentinelTag.data = some (31, 12, 1969, 23, 59, 59) ∧
    mkTime 31 12 1969 23 59 59 = -1 ∧
    dt2time sentinelTag = -1 ∧
    ((-10 : Int) ≤ -1 ∧ (-1 : Int) ≤ 10) ∧
    checkInterval sentinelTag (-10) 10 = false := by
  decide

/-- C7 (amended): the filter accepts exactly the tags whose conversion result
is not the sentinel -1 and lies in the inclusive window `[fromT, toT]`; a tag
that does not scan (conversion -1), or whose instant is exactly -1, is
excluded, never a fatal error. -/
theorem checkInterval_window_iff (s : String) (fromT toT : Int) :
    checkInterval s fromT toT = true ↔
      dt2time s ≠ -1 ∧ fromT ≤ dt2time s ∧ dt2time s ≤ toT := by
  unfold checkInterval
  by_cases h : dt2time s = -1 <;> simp [h]

/-- Witness for the amended C7 theorem at a concrete in-window tag. -/
theorem checkInterval_window_iff_w :
    checkInterval gp2LineOk 0 2000000000 = true :=
  (checkInterval_window_iff gp2LineOk 0 2000000000).mpr (by decide)

lemma wantedScanAux_zero (a : Nat → Nat) :
    ∀ fuel i, wantedScanAux a 0 fuel i = false := by
  intro fuel
  induction fuel with
  | zero => intro i; rfl
  | succ m ih =>
    intro i
    unfold wantedScanAux
    split_ifs with h1 h2
    · rfl
    · exact ih (i + 1)
    · rfl

/-- C9: when the first entry of the wanted array is nonzero, MID 0 is never
accepted: the scan loop stops at the first zero entry, so no comparison
against a zero entry ever happens and 0 cannot match. -/
theorem wantedMsg_zero_rejected (a : Nat → Nat) (h : a 0 ≠ 0) :
    wantedMsg a 0 = false := by
  unfold wantedMsg wantedScan
  rw [if_neg h]
  exact wantedScanAux_zero a (100 - 0) 0

/-- Witness: the default wanted array has nonzero first entry and rejects
MID 0. -/
theorem wantedMsg_zero_rejected_w :
    WANTEDMsg0 0 ≠ 0 ∧ wantedMsg WANTEDMsg0 0 = false :=
  ⟨by decide, wantedMsg_zero_rejected WANTEDMsg0 (by decide)⟩

lemma updArr_self (a : Nat → Nat) (p v : Nat) : updArr a p v p = v := by
  simp [updArr]

lemma updArr_updArr (a : Nat → Nat) (p x y : Nat) :
    updArr (updArr a p x) p y = updArr a p y := by
  funext j
  by_cases h : j = p <;> simp [updArr, h]

/-- C10: a token stored as byte 0 (produced by `atoi` on a non-numeric token,
on the token 0, or on any multiple of 256) does not advance the insertion
position: a following token overwrites it in place (the loop state after
processing `0 :: v :: rest` equals the state after `v :: rest` alone), and as
the last token it leaves a 0 terminator at the current position, changing no
other entry. -/
theorem addLoop_zero_token (a : Nat → Nat) (p v : Nat) (rest : List Nat) :
    tokByte (("0").data) = 0 ∧
    tokByte (("512").data) = 0 ∧
    tokByte (("foo").data) = 0 ∧
    addLoop (0 :: v :: rest) a p = addLoop (v :: rest) a p ∧
    (addLoop [0] a p).2 = p ∧
    (addLoop [0] a p).1 p = 0 ∧
    ∀ j, j ≠ p → (addLoop [0] a p).1 j = a j := by
  refine ⟨by decide, by decide, by decide, ?_, ?_, ?_, ?_⟩
  · show addLoop (v :: rest)
        (updArr a p 0)
        (if p < 100 ∧ updArr a p 0 p ≠ 0 then p + 1 else p) = addLoop (v :: rest) a p
    rw [updArr_self, if_neg (by simp)]
    show addLoop rest (updArr (updArr a p 0) p v)
        (if p < 100 ∧ updArr (updArr a p 0) p v p ≠ 0 then p + 1 else p) =
      addLoop rest (updArr a p v)
        (if p < 100 ∧ updArr a p v p ≠ 0 then p + 1 else p)
    rw [updArr_updArr]
  · show (if p < 100 ∧ updArr a p 0 p ≠ 0 then p + 1 else p) = p
    rw [updArr_self, if_neg (by simp)]
  · show updArr a p 0 p = 0
    exact updArr_self a p 0
  · intro j hj
    show updArr a p 0 j = a j
    simp [updArr, hj]

/-- Witness for the C10 theorem at concrete inputs (position 12, the first
free slot of the default array). -/
theorem addLoop_zero_token_w :
    addLoop [0, 7] WANTEDMsg0 12 = addLoop [7] WANTEDMsg0 12 ∧
    (addLoop [0] WANTEDMsg0 12).2 = 12 ∧
    (addLoop [0] WANTEDMsg0 12).1 12 = 0 ∧
    (addLoop [0] WANTEDMsg0 12).1 13 = WANTEDMsg0 13 :=
  ⟨(addLoop_zero_token WANTEDMsg0 12 7 []).2.2.2.1,
   (addLoop_zero_token WANTEDMsg0 12 7 []).2.2.2.2.1,
   (addLoop_zero_token WANTEDMsg0 12 7 []).2.2.2.2.2.1,
   (addLoop_zero_token WANTEDMsg0 12 7 []).2.2.2.2.2.2 13 (by decide)⟩

/-- C5 counterexample: a line that fails extraction (no head marker anywhere)
whose time tag lies outside the window is reported as excluded by the time
window, not as a missing-header failure: the time-window decision is made
about it before any extraction step, refuting the claimed step order. -/
theorem processLine_extraction_order_cex :
    strstrIdx gp2LineEarly.data (("A0 A2").data) = none ∧
    checkInterval gp2LineEarly 1000000000 2000000000 = false ∧
    processLine WANTEDMsg0 1000000000 2000000000 gp2LineEarly = LineOutcome.skippedTime := by
  decide

lemma classifyFrame_ne_skippedTime (w : Nat → Nat) (bytes : List Nat) :
    classifyFrame w bytes ≠ LineOutcome.skippedTime := by
  unfold classifyFrame
  cases validateFrame bytes <;> simp
  split <;> simp

/-- C5 (amended): per line the pipeline takes the 23-character time tag and
decides the time window first; a line is reported time-window-skipped exactly
when its tag fails the window check, and only lines passing it proceed to
marker search, byte decoding, validation and the MID filter. -/
theorem processLine_timeFilter_first (w : Nat → Nat) (fromT toT : Int) (line : String) :
    processLine w fromT toT line = LineOutcome.skippedTime ↔
      checkInterval line fromT toT = false := by
  by_cases h : checkInterval line fromT toT
  · constructor
    · intro hEq
      unfold processLine at hEq
      rw [h, if_pos rfl] at hEq
      split at hEq
      · exact absurd hEq (by simp)
      · split at hEq
        · exact absurd hEq (by simp)
        · exact absurd hEq (classifyFrame_ne_skippedTime w _)
    · intro hF
      rw [h] at hF
      cases hF
  · have hf : checkInterval line fromT toT = false := by
      cases hcb : checkInterval line fromT toT
      · rfl
      · exact absurd hcb h
    simp [processLine, hf]

/-- Witness for the amended C5 theorem: the out-of-window line maps to the
time-window skip. -/
theorem processLine_timeFilter_first_w :
    processLine WANTEDMsg0 1000000000 2000000000 gp2LineEarly = LineOutcome.skippedTime :=
  (processLine_timeFilter_first WANTEDMsg0 1000000000 2000000000 gp2LineEarly).mpr (by decide)

lemma extractLoop_fatal (w : Nat → Nat) (fromT toT : Int) (sink : Nat → Bool) (j : Nat)
    (hok : ∀ i, i < j → sink i = true) (hfail : sink j = false) :
    ∀ lines n, (∀ l ∈ lines, processLine w fromT toT l ≠ LineOutcome.invalidDeref) →
      n ≤ j → j + 1 ≤ n + countAccepted w fromT toT lines →
      extractLoop w fromT toT sink lines n = some (-(Int.ofNat j) - 4) := by
  intro lines
  induction lines with
  | nil =>
    intro n _ hn hc
    simp [countAccepted] at hc
    omega
  | cons l ls ih =>
    intro n hd hn hc
    have hdl : processLine w fromT toT l ≠ LineOutcome.invalidDeref := hd l (by simp)
    have hdls : ∀ x ∈ ls, processLine w fromT toT x ≠ LineOutcome.invalidDeref :=
      fun x hx => hd x (by simp [hx])
    have hcount : countAccepted w fromT toT (l :: ls) =
        countAccepted w fromT toT ls + if (processLine w fromT toT l).isAcc then 1 else 0 := by
      simp [countAccepted, List.countP_cons]
    cases ho : processLine w fromT toT l
    case invalidDeref => exact absurd ho hdl
    case accepted m =>
      have hacc : (processLine w fromT toT l).isAcc = true := by rw [ho]; rfl
      have hc2 : j + 1 ≤ n + (countAccepted w fromT toT ls + 1) := by
        rw [hcount, hacc] at hc
        simpa using hc
      simp only [extractLoop, ho]
      rcases Nat.lt_or_ge n j with hlt | hge
      · rw [hok n hlt]
        simp only [if_true]
        exact ih (n + 1) hdls (by omega) (by omega)
      · have hnj : n = j := by omega
        subst hnj
        rw [hfail]
        simp
    all_goals {
      first
      | exact absurd ho hdl
      | {
          have hacc : (processLine w fromT toT l).isAcc = false := by rw [ho]; rfl
          have hc2 : j + 1 ≤ n + countAccepted w fromT toT ls := by
            rw [hcount, hacc] at hc
            simpa using hc
          simp only [extractLoop, ho]
          exact ih n hdls hn hc2
        }
    }

/-- C4: when the sink reports a short write on the `(j+1)`-th accepted frame
(`sink i` full for `i < j`, short at `j`), the pipeline returns at once with
`-nMessages - 4 = -j - 4`: the value is negative and the number `j` of frames
written before the failure is recoverable from it as `-result - 4`. -/
theorem extractMsgs_fatal_write (w : Nat → Nat) (fromT toT : Int) (sink : Nat → Bool)
    (lines : List String) (j : Nat)
    (hder : ∀ l ∈ lines, processLine w fromT toT l ≠ LineOutcome.invalidDeref)
    (hcnt : j + 1 ≤ countAccepted w fromT toT lines)
    (hok : ∀ i, i < j → sink i = true) (hfail : sink j = false) :
    extractMsgs w fromT toT sink lines = some (-(j : Int) - 4) ∧
    -(j : Int) - 4 < 0 ∧
    -(-(j : Int) - 4) - 4 = (j : Int) := by
  refine ⟨?_, by omega, by omega⟩
  have h := extractLoop_fatal w fromT toT sink j hok hfail lines 0 hder (by omega)
    (by simpa using hcnt)
  simpa using h

/-- Witness: two valid lines, a sink whose second write is short: the result
is `some (-5)`, encoding exactly one successful write. -/
theorem extractMsgs_fatal_write_w :
    countAccepted WANTEDMsg0 0 2000000000 [gp2LineOk, gp2LineOk] = 2 ∧
    extractMsgs WANTEDMsg0 0 2000000000 sinkFailSecond [gp2LineOk, gp2LineOk] = some (-5) := by
  refine ⟨by decide, ?_⟩
  have h := extractMsgs_fatal_write WANTEDMsg0 0 2000000000 sinkFailSecond [gp2LineOk, gp2LineOk] 1
    (by decide) (by decide)
    (fun i hi => by
      have hz : i = 0 := by omega
      subst hz
      rfl)
    (by rfl)
  have h5 : -((1 : Nat) : Int) - 4 = (-5 : Int) := by decide
  rw [h5] at h
  exact h.1

/-- C2: for every buffer the validator accepts, the trailing 2-byte big-endian
checksum field equals the sum of the payload bytes masked with 0x7FFF; and
changing any single payload byte to a different byte value turns the buffer
into one the validator rejects with a checksum mismatch. -/
theorem checksum_invariant_and_mutation (bytes : List Nat) (i b' : Nat)
    (hvok : validateFrame bytes = VResult.ok)
    (hb : ∀ x ∈ bytes, x < 256)
    (h2i : 2 ≤ i) (hi : i < 2 + payloadLenOf bytes)
    (hb' : b' < 256) (hne : b' ≠ nthD bytes i) :
    msgCheckOf bytes = paySum bytes (payloadLenOf bytes) &&& 32767 ∧
    validateFrame (bytes.set i b') = VResult.checkMismatch := by
  obtain ⟨hl4, hl2050, hlen, hchk⟩ := (validateFrame_cases bytes).2.2.2.mp hvok
  have hilen : i < bytes.length := by omega
  have hpays : checkLoop bytes (payloadLenOf bytes) 0 0 =
      paySum bytes (payloadLenOf bytes) % 32768 :=
    checkLoop_eq_paySum bytes (payloadLenOf bytes)
  constructor
  · rw [← hchk, hpays, and_mask]
  · -- the mutated buffer keeps its length and its length/check fields
    have hlenB : (bytes.set i b').length = bytes.length := List.length_set bytes i b'
    have hpl : payloadLenOf (bytes.set i b') = payloadLenOf bytes := by
      unfold payloadLenOf
      rw [nthD_set_ne bytes i 0 b' (by omega), nthD_set_ne bytes i 1 b' (by omega)]
    have hmsg : msgCheckOf (bytes.set i b') = msgCheckOf bytes := by
      unfold msgCheckOf
      rw [hpl, nthD_set_ne bytes i _ b' (by omega), nthD_set_ne bytes i _ b' (by omega)]
    have hswap : paySum (bytes.set i b') (payloadLenOf bytes) + nthD bytes i =
        paySum bytes (payloadLenOf bytes) + b' := by
      unfold paySum
      have hsw := range_map_sum_swap (fun k => nthD (bytes.set i b') (k + 2))
        (fun k => nthD bytes (k + 2)) (payloadLenOf bytes) (i - 2) (by omega)
        (fun k _ hkne => nthD_set_ne bytes i (k + 2) b' (by omega))
      have hgk : nthD bytes (i - 2 + 2) = nthD bytes i := by
        congr 1
        omega
      have hfk : nthD (bytes.set i b') (i - 2 + 2) = b' := by
        have hid : i - 2 + 2 = i := by omega
        rw [hid]
        exact nthD_set_self bytes i b' hilen
      beta_reduce at hsw
      rw [hgk, hfk] at hsw
      exact hsw
    have holdlt : nthD bytes i < 256 := hb (nthD bytes i) (nthD_mem bytes i hilen)
    have hchkB : checkLoop (bytes.set i b') (payloadLenOf (bytes.set i b')) 0 0 =
        paySum (bytes.set i b') (payloadLenOf bytes) % 32768 := by
      rw [hpl]
      exact checkLoop_eq_paySum (bytes.set i b') (payloadLenOf bytes)
    have hneq : checkLoop (bytes.set i b') (payloadLenOf (bytes.set i b')) 0 0 ≠
        msgCheckOf (bytes.set i b') := by
      intro heq
      have hmod : paySum (bytes.set i b') (payloadLenOf bytes) % 32768 =
          paySum bytes (payloadLenOf bytes) % 32768 := by
        rw [← hchkB, heq, hmsg, ← hchk, hpays]
      have hmod2 : (paySum (bytes.set i b') (payloadLenOf bytes) + nthD bytes i) % 32768 =
          (paySum bytes (payloadLenOf bytes) + nthD bytes i) % 32768 :=
        Nat.ModEq.add_right (nthD bytes i) hmod
      rw [hswap] at hmod2
      have hcancel : b' % 32768 = nthD bytes i % 32768 :=
        Nat.ModEq.add_left_cancel' (paySum bytes (payloadLenOf bytes)) hmod2
      rw [Nat.mod_eq_of_lt (by omega), Nat.mod_eq_of_lt (by omega)] at hcancel
      exact hne hcancel
    exact (validateFrame_cases (bytes.set i b')).2.2.1.mpr
      ⟨by omega, by omega, by rw [hlenB, hpl, hlen], hneq⟩

/-- Witness for C2 on the concrete accepted frame `00 01 02 00 02`
(payload length 1, payload byte 02, checksum 2), mutating the payload byte
to 3. -/
theorem checksum_invariant_and_mutation_w :
    validateFrame [0, 1, 2, 0, 2] = VResult.ok ∧
    msgCheckOf [0, 1, 2, 0, 2] =
      paySum [0, 1, 2, 0, 2] (payloadLenOf [0, 1, 2, 0, 2]) &&& 32767 ∧
    validateFrame ([0, 1, 2, 0, 2].set 2 3) = VResult.checkMismatch := by
  refine ⟨by decide, ?_, ?_⟩
  · exact (checksum_invariant_and_mutation [0, 1, 2, 0, 2] 2 3 (by decide) (by decide)
      (by decide) (by decide) (by decide) (by decide)).1
  · exact (checksum_invariant_and_mutation [0, 1, 2, 0, 2] 2 3 (by decide) (by decide)
      (by decide) (by decide) (by decide) (by decide)).2

/-- C3: the validator rejects with the bounds failure exactly when the decoded
count is ≤ 4 or ≥ 2050; otherwise it rejects with the length-mismatch failure
exactly when the count differs from `payloadLen + 4` (payloadLen big-endian
from the first two bytes); a buffer passing both checks has
count = `payloadLen + 4`. -/
theorem validateFrame_length_props (bytes : List Nat) :
    (validateFrame bytes = VResult.tooShortLong ↔
      bytes.length ≤ 4 ∨ 2050 ≤ bytes.length) ∧
    (validateFrame bytes = VResult.lenMismatch ↔
      4 < bytes.length ∧ bytes.length < 2050 ∧ bytes.length ≠ payloadLenOf bytes + 4) ∧
    ((validateFrame bytes = VResult.ok ∨ validateFrame bytes = VResult.checkMismatch) →
      bytes.length = payloadLenOf bytes + 4) := by
  obtain ⟨hA, hB, hC, hD⟩ := validateFrame_cases bytes
  refine ⟨hA, hB, ?_⟩
  rintro (h | h)
  · exact (hD.mp h).2.2.1
  · exact (hC.mp h).2.2.1

/-- Witness for C3: a short buffer is rejected with the bounds failure, and an
accepted buffer satisfies the length equation. -/
theorem validateFrame_length_props_w :
    validateFrame [0, 0, 0] = VResult.tooShortLong ∧
    ([0, 1, 2, 0, 2] : List Nat).length = payloadLenOf [0, 1, 2, 0, 2] + 4 :=
  ⟨(validateFrame_length_props [0, 0, 0]).1.mpr (by decide),
   (validateFrame_length_props [0, 1, 2, 0, 2]).2.2 (Or.inl (by decide))⟩

set_option maxRecDepth 4000 in
/-- C8: after building from `ALL` the filter accepts every MID 0-255; after
`RINEX` it accepts exactly the default set {2,6,7,56,8,11,12,15,28,50,64,75};
after `RINEX,99` it accepts exactly the default set plus 99. -/
theorem buildWhitelist_semantics :
    (∀ mid : Fin 256, wantedMsg (buildWhitelist ("ALL")) mid.val = true) ∧
    (∀ mid : Fin 256, wantedMsg (buildWhitelist ("RINEX")) mid.val =
      decide (mid.val ∈ ([2, 6, 7, 56, 8, 11, 12, 15, 28, 50, 64, 75] : List Nat))) ∧
    (∀ mid : Fin 256, wantedMsg (buildWhitelist ("RINEX,99")) mid.val =
      decide (mid.val ∈ ([2, 6, 7, 56, 8, 11, 12, 15, 28, 50, 64, 75, 99] : List Nat))) := by
  decide
